import Mathlib

/-!
Verification of the odds aggregation / arbitrage detection core of the
`allusion` repository (`src/allusion/utils.py` and the failure-handling
structure of `src/allusion/scraper.py`).

Pandas DataFrames are shallowly embedded as a list of column names plus a
list of rows (each row a list of cell values, positionally aligned with the
column list).  Cell values are modelled by `Val`: finite floats become exact
rationals, `NaN` (pandas' missing marker) and `+inf` (the result of the
vectorised `1/0`) are explicit constructors, and string/bool cells are
carried as such.  Fallible pandas operations (`drop` of a missing column,
`iloc[0]` of an empty frame, `idxmax` of an all-NA column) are embedded in
`Except`, mirroring the exceptions they raise in Python.
-/

set_option maxHeartbeats 1000000

/-- A pandas cell value: an exact rational standing for a finite float, a
string, a boolean, the missing marker `NaN`, or `+inf` (as produced by the
vectorised division `1/0`). -/
inductive Val where
  | num (q : ℚ)
  | str (s : String)
  | bool (b : Bool)
  | nan
  | inf
  deriving DecidableEq, Repr

/-- A DataFrame: named columns and rows of cells, positionally aligned. -/
structure DF where
  cols : List String
  rows : List (List Val)
  deriving DecidableEq, Repr

/-- Well-formedness: distinct column names and rectangular rows. -/
def DF.Wf (df : DF) : Prop :=
  df.cols.Nodup ∧ ∀ r ∈ df.rows, r.length = df.cols.length

instance (df : DF) : Decidable df.Wf := by
  unfold DF.Wf; infer_instance

/-- Does `n` occur at the head of `h`? (helper for substring search). -/
def leadsList : List Char → List Char → Bool
  | [], _ => true
  | _ :: _, [] => false
  | a :: as, b :: bs => a == b && leadsList as bs

/-- Does `n` occur as a contiguous sublist of `h`?  Embeds Python's
`n in h` substring test on the underlying character lists. -/
def hasSubList (n : List Char) : List Char → Bool
  | [] => n.isEmpty
  | c :: t => leadsList n (c :: t) || hasSubList n t

/-- Python's `"odds" in col` test used to discover outcome columns. -/
def hasOdds (s : String) : Bool := hasSubList "odds".data s.data

/-- Fuel-indexed worker for Python's `str.replace`: replaces every
non-overlapping occurrence of `n` by `r`, scanning left to right. -/
def pyReplaceAux (n r : List Char) : Nat → List Char → List Char
  | _, [] => []
  | 0, h => h
  | Nat.succ fuel, c :: t =>
    if !n.isEmpty && leadsList n (c :: t) then
      r ++ pyReplaceAux n r fuel ((c :: t).drop n.length)
    else
      c :: pyReplaceAux n r fuel t

/-- Python's `s.replace(n, r)`. -/
def pyReplace (s n r : String) : String :=
  ⟨pyReplaceAux n.data r.data s.data.length s.data⟩

/-- The sibling bookmaker column of an odds column:
`str(col).replace("odds", "book")`. -/
def bookColOf (c : String) : String := pyReplace c "odds" "book"

/-- A pandas Series with a string index: an ordered association list (the
metadata row `tmp` built by `_df_best_odds`). -/
abbrev Series := List (String × Val)

instance {ε α : Type} [DecidableEq ε] [DecidableEq α] :
    DecidableEq (Except ε α) := fun x y =>
  match x, y with
  | Except.error a, Except.error b =>
    if h : a = b then Decidable.isTrue (by rw [h])
    else Decidable.isFalse (fun hh => by injection hh; exact h ‹a = b›)
  | Except.ok a, Except.ok b =>
    if h : a = b then Decidable.isTrue (by rw [h])
    else Decidable.isFalse (fun hh => by injection hh; exact h ‹a = b›)
  | Except.error _, Except.ok _ =>
    Decidable.isFalse (fun hh => Except.noConfusion hh)
  | Except.ok _, Except.error _ =>
    Decidable.isFalse (fun hh => Except.noConfusion hh)

/-- `tmp[k] = v`: overwrite the entry at key `k` in place, else append. -/
def setKV : Series → String → Val → Series
  | [], k, v => [(k, v)]
  | (k', v') :: t, k, v =>
    if k' = k then (k, v) :: t else (k', v') :: setKV t k v

/-- Read a Series entry by key. -/
def lookupKV : Series → String → Option Val
  | [], _ => none
  | (k', v') :: t, k => if k' = k then some v' else lookupKV t k

/-- Position of the column named `c` in the column list (first occurrence). -/
def colIdx (cols : List String) (c : String) : Option Nat :=
  match cols with
  | [] => none
  | x :: t => if x = c then some 0 else (colIdx t c).map (fun i => i + 1)

/-- The cell of row `row` in the column named `c` (`NaN` if absent,
matching the alignment behaviour the claims exercise). -/
def getCell (cols : List String) (row : List Val) (c : String) : Val :=
  match colIdx cols c with
  | some i => row.getD i Val.nan
  | none => Val.nan

/-- `df.at[i, c]`. -/
def DF.cell (df : DF) (i : Nat) (c : String) : Val :=
  getCell df.cols (df.rows.getD i []) c

/-- `df[c]` as the list of cells of column `c`, in row order. -/
def DF.col (df : DF) (c : String) : List Val :=
  df.rows.map (fun r => getCell df.cols r c)

/-- The dynamically discovered outcome columns:
`[col for col in df.columns if "odds" in col]`. -/
def oddsColumns (cols : List String) : List String :=
  cols.filter (fun c => hasOdds c)

/-- `df[df[c] == v]`: row filter on one column, preserving order. -/
def subsetWhere (df : DF) (c : String) (v : Val) : DF :=
  { cols := df.cols
    rows := df.rows.filter (fun r => decide (getCell df.cols r c = v)) }

/-- Worker for `Series.unique`: first-occurrence order deduplication. -/
def uniqueAux (seen : List Val) : List Val → List Val
  | [] => []
  | v :: t => if v ∈ seen then uniqueAux seen t else v :: uniqueAux (v :: seen) t

/-- `df[c].unique()`: distinct values in first-occurrence order. -/
def uniqueVals (l : List Val) : List Val := uniqueAux [] l

/-- `Series.idxmax` (with pandas' default `skipna=True`): position and value
of the first maximal numeric entry; `none` when no numeric entry exists
(pandas raises in that case). -/
def idxmax : List Val → Option (Nat × ℚ)
  | [] => none
  | Val.num q :: t =>
    match (idxmax t).map (fun p => (p.1 + 1, p.2)) with
    | none => some (0, q)
    | some (j, m) => if q < m then some (j, m) else some (0, q)
  | _ :: t => (idxmax t).map (fun p => (p.1 + 1, p.2))

/-- The per-outcome-column loop body of `_df_best_odds`: for each odds
column take `idxmax`, read the max value and the achieving row's `book`,
and write both into the metadata Series (`tmp[col] = max_value;
tmp[book_col] = max_book`).  An all-NA column makes `idxmax` fail, which
pandas surfaces as an exception. -/
def bestFold (df : DF) : Series → List String → Except String Series
  | tmp, [] => Except.ok tmp
  | tmp, c :: cs =>
    match idxmax (df.col c) with
    | none => Except.error "ValueError: idxmax of an all-NA column"
    | some (i, m) =>
      bestFold df
        (setKV (setKV tmp c (Val.num m)) (bookColOf c) (df.cell i "book")) cs

/-- `_df_best_odds(df)` from `src/allusion/utils.py`: drop the odds columns
and the `book` column from the first row to get the metadata template
(`KeyError` if `book` is absent, `IndexError` on an empty frame), then fill
in the per-column maxima and their bookmakers. -/
def _df_best_odds (df : DF) : Except String Series :=
  if "book" ∈ df.cols then
    match df.rows.head? with
    | none => Except.error "IndexError: iloc[0] on an empty frame"
    | some row0 =>
      let keep := df.cols.filter (fun c => !hasOdds c && c != "book")
      bestFold df (keep.map (fun c => (c, getCell df.cols row0 c)))
        (oddsColumns df.cols)
  else
    Except.error "KeyError: book"

/-- Inner loop of `get_df_best_odds`: fold over the unique `match` values
of one league's sub-frame, appending each group's best-odds Series. -/
def matchFold (lgs : DF) : List Series → List Val → Except String (List Series)
  | acc, [] => Except.ok acc
  | acc, m :: ms =>
    match _df_best_odds (subsetWhere lgs "match" m) with
    | Except.error e => Except.error e
    | Except.ok t => matchFold lgs (acc ++ [t]) ms

/-- Outer loop of `get_df_best_odds`: fold over the unique `league`
values, running the match loop on each league's sub-frame. -/
def leagueFold (df : DF) : List Series → List Val → Except String (List Series)
  | acc, [] => Except.ok acc
  | acc, l :: ls =>
    match matchFold (subsetWhere df "league" l) acc
        (uniqueVals ((subsetWhere df "league" l).col "match")) with
    | Except.error e => Except.error e
    | Except.ok acc2 => leagueFold df acc2 ls

/-- `get_df_best_odds(df)` from `src/allusion/utils.py`: nested iteration
over unique leagues, then unique matches within each league, emitting one
best-odds Series per group (the Python code accumulates them with
`pd.concat(..., axis=1)` and finally transposes; the content is this list
of Series in group order). -/
def get_df_best_odds (df : DF) : Except String (List Series) :=
  leagueFold df [] (uniqueVals (df.col "league"))

/-- Vectorised reciprocal `1 / cell`, with numpy float semantics:
`1/0 = +inf`, `1/NaN = NaN`. -/
def vinv : Val → Val
  | Val.num q => if q = 0 then Val.inf else Val.num (1 / q)
  | Val.inf => Val.num 0
  | _ => Val.nan

/-- One addition step of the row-wise float sum (`NaN` skipped,
infinities absorbing). -/
def vadd : Val → Val → Val
  | Val.inf, _ => Val.inf
  | _, Val.inf => Val.inf
  | Val.num a, Val.num b => Val.num (a + b)
  | a, _ => a

/-- Row-wise `sum(axis=1)` with pandas' default `skipna=True`: `NaN`
entries contribute nothing, an empty or all-NA row sums to `0.0`, and an
infinite entry makes the sum infinite. -/
def vsum (l : List Val) : Val :=
  l.foldl vadd (Val.num 0)

/-- The float comparison `x < 1` (False on `NaN` and on `+inf`). -/
def vltOne : Val → Bool
  | Val.num q => decide (q < 1)
  | _ => false

/-- Column assignment `df[c] = vals`: overwrite an existing column in
place, else append a new column on the right. -/
def setColumn (df : DF) (c : String) (vals : List Val) : DF :=
  match colIdx df.cols c with
  | some i =>
    { cols := df.cols, rows := List.zipWith (fun r v => r.set i v) df.rows vals }
  | none =>
    { cols := df.cols ++ [c], rows := List.zipWith (fun r v => r ++ [v]) df.rows vals }

/-- The reciprocal sum the code computes for one row:
`(1 / df[odds_columns]).sum(axis=1)`. -/
def vsumRow (df : DF) (r : List Val) : Val :=
  vsum ((oddsColumns df.cols).map (fun c => vinv (getCell df.cols r c)))

/-- The `reciprocal_sum` column: one float sum per row. -/
def recSums (df : DF) : List Val :=
  df.rows.map (fun r => vsumRow df r)

/-- `check_arbitrage(df)` from `src/allusion/utils.py`.  The Python
function assigns the `reciprocal_sum` and `arbitrage` columns *onto the
caller's frame* (in-place mutation) and then returns the filtered frame;
the model therefore returns the pair (caller-visible frame after the call,
returned frame). -/
def check_arbitrage (df : DF) : DF × DF :=
  let df1 := setColumn df "reciprocal_sum" (recSums df)
  let df2 := setColumn df1 "arbitrage"
    (df1.rows.map (fun r =>
      Val.bool (vltOne (getCell df1.cols r "reciprocal_sum"))))
  (df2,
   { cols := df2.cols
     rows := df2.rows.filter (fun r =>
       decide (getCell df2.cols r "arbitrage" = Val.bool true)) })

/-! ### The collection pipeline (`src/allusion/scraper.py`)

The browser/DOM collaborator is abstracted by feeding each call the
outcome the external site produced.  The constructors mirror the distinct
control paths of the source: navigation/DOM failures raised *outside* any
`try` block propagate (`Except.error`), the two handled per-match
conditions (`No data found`, and an exception inside the parsing `try`)
return an empty observation list. -/

/-- One observation dict built by `_get_odds_from_match`. -/
abbrev Obs := Series

/-- The outcome of scraping one match page.
  * `navError`: `page.goto`/click/wait raised — no handler in the source.
  * `noData`: the 1X2 selector is not visible (`return []`, utils.py-handled).
  * `parseError`: an exception inside the players/time/odds parsing `try`
    (`return []`).
  * `ok`: the parsed bookmaker observation dicts. -/
inductive MatchFetch where
  | navError
  | noData
  | parseError
  | ok (obs : List Obs)
  deriving DecidableEq, Repr

/-- `_get_odds_from_match`: handled failures yield `[]`; navigation
failures propagate. -/
def _get_odds_from_match : MatchFetch → Except String (List Obs)
  | MatchFetch.navError => Except.error "navigation error in match page"
  | MatchFetch.noData => Except.ok []
  | MatchFetch.parseError => Except.ok []
  | MatchFetch.ok obs => Except.ok obs

/-- The `(sport, country, league)` metadata dict `tmp` of
`_get_odds_from_league`. -/
structure LeagueMeta where
  sport : String
  country : String
  league : String
  deriving DecidableEq, Repr

/-- `d.update(tmp)`: write the league metadata keys into one observation. -/
def addMeta (m : LeagueMeta) (o : Obs) : Obs :=
  setKV (setKV (setKV o "sport" (Val.str m.sport)) "country" (Val.str m.country))
    "league" (Val.str m.league)

/-- The outcome of scraping one league page: either the league page
navigation itself fails (uncaught in the source), or it yields a list of
match-page outcomes. -/
inductive LeagueFetch where
  | navError
  | matches (ms : List MatchFetch)
  deriving DecidableEq, Repr

/-- The `for match in matches:` loop of `_get_odds_from_league`: empty
results are skipped (`if not data: continue`), parsed dicts get the league
metadata and are appended; an uncaught match failure propagates. -/
def leagueMatchFold (meta : LeagueMeta) :
    List Obs → List MatchFetch → Except String (List Obs)
  | acc, [] => Except.ok acc
  | acc, f :: fs =>
    match _get_odds_from_match f with
    | Except.error e => Except.error e
    | Except.ok data => leagueMatchFold meta (acc ++ data.map (addMeta meta)) fs

/-- `_get_odds_from_league`: navigate to the league page (uncaught on
failure), then collect the per-match observations.  The only `try` in the
source wraps the final `pd.DataFrame(full_data)` construction, which
cannot fail on a list of dicts, so it does not appear here. -/
def _get_odds_from_league (meta : LeagueMeta) : LeagueFetch → Except String (List Obs)
  | LeagueFetch.navError => Except.error "navigation error in league page"
  | LeagueFetch.matches ms => leagueMatchFold meta [] ms

/-- The nested league loop of `get_odds`: each league's frame is appended
to the accumulator (`pd.concat`); the call to `_get_odds_from_league` is
*not* inside any `try` block in the source, so its failure propagates. -/
def catalogFold : List Obs → List (LeagueMeta × LeagueFetch) → Except String (List Obs)
  | acc, [] => Except.ok acc
  | acc, p :: rest =>
    match _get_odds_from_league p.1 p.2 with
    | Except.error e => Except.error e
    | Except.ok t => catalogFold (acc ++ t) rest

/-- `get_odds`: fold the whole catalog into one observation table. -/
def get_odds (catalog : List (LeagueMeta × LeagueFetch)) : Except String (List Obs) :=
  catalogFold [] catalog

/-! ### Specification-side definitions

These are written from the spec's words and compared with the embedded
code by the claim theorems. -/

/-- The numeric content of a cell (`none` for missing / non-numeric). -/
def toNum? : Val → Option ℚ
  | Val.num q => some q
  | _ => none

/-- Spec: the reciprocal sum of one row, `Σ 1/odds` over exactly the
outcome-odds columns present (non-missing) on that row. -/
def rowRecipSum (cols : List String) (r : List Val) : ℚ :=
  ((oddsColumns cols).filterMap
    (fun c => (toNum? (getCell cols r c)).map (fun q => 1 / q))).sum

/-- The `(league, match)` key of every observation row, in row order. -/
def pairsOf (df : DF) : List (Val × Val) :=
  df.rows.map (fun r => (getCell df.cols r "league", getCell df.cols r "match"))

/-- Spec: the group of one `(league, match)` key — rows matching *both*
components (the league key is part of the group key). -/
def subsetPair (df : DF) (l m : Val) : DF :=
  { cols := df.cols
    rows := df.rows.filter (fun r =>
      decide (getCell df.cols r "league" = l) &&
      decide (getCell df.cols r "match" = m)) }

/-- The nested group keys: unique leagues in first-occurrence order, and
within each league its unique match values, paired with the league. -/
def nestedKeys (df : DF) : List (Val × Val) :=
  ((uniqueVals (df.col "league")).map (fun l =>
    (uniqueVals ((subsetWhere df "league" l).col "match")).map (fun m => (l, m)))).flatten

/-- Spec-side reference aggregation: one best-odds Series per key, each
computed from the two-component key's group. -/
def groupsMapM (df : DF) : List (Val × Val) → Except String (List Series)
  | [] => Except.ok []
  | p :: ps =>
    match _df_best_odds (subsetPair df p.1 p.2) with
    | Except.error e => Except.error e
    | Except.ok t =>
      match groupsMapM df ps with
      | Except.error e => Except.error e
      | Except.ok ts => Except.ok (t :: ts)

/-- No derived `<outcome>_book` name collides with an odds column or with
another derived book name, and each differs from its odds column (true of
`home_odds`/`draw_odds`/`away_odds` and any reasonable naming). -/
def bookColsFresh (cols : List String) : Bool :=
  (oddsColumns cols).all (fun c =>
    (bookColOf c != c) &&
    (oddsColumns cols).all (fun c' =>
      (bookColOf c' != c) && (c == c' || bookColOf c' != bookColOf c)))

/-- An admissible odds cell: missing, or a nonzero number (the Observation
invariant: odds are positive decimal prices). -/
def oddsCellOk : Val → Bool
  | Val.nan => true
  | Val.num q => q != 0
  | _ => false

/-- Every odds cell of the table is either missing or a nonzero number. -/
def OddsCellsOk (df : DF) : Prop :=
  ∀ r ∈ df.rows, ∀ c ∈ oddsColumns df.cols, oddsCellOk (getCell df.cols r c) = true

instance (df : DF) : Decidable (OddsCellsOk df) := by
  unfold OddsCellsOk; infer_instance

/-! ### Association list and column lookup lemmas -/

theorem lookupKV_setKV_self (s : Series) (k : String) (v : Val) :
    lookupKV (setKV s k v) k = some v := by
  induction s with
  | nil => simp [setKV, lookupKV]
  | cons p t ih =>
    by_cases h : p.1 = k
    · simp [setKV, lookupKV, h]
    · simp [setKV, lookupKV, h, ih]

theorem lookupKV_setKV_ne (s : Series) {k' k : String} (v : Val) (h : k' ≠ k) :
    lookupKV (setKV s k' v) k = lookupKV s k := by
  induction s with
  | nil => simp [setKV, lookupKV, h]
  | cons p t ih =>
    by_cases hp : p.1 = k'
    · simp [setKV, lookupKV, hp, h]
    · simp only [setKV, hp, if_false, lookupKV]
      by_cases hk : p.1 = k <;> simp [hk, ih]

theorem colIdx_of_not_mem {cols : List String} {c : String} (h : c ∉ cols) :
    colIdx cols c = none := by
  induction cols with
  | nil => rfl
  | cons x t ih =>
    have hx : x ≠ c := fun he => h (he ▸ List.mem_cons_self x t)
    simp [colIdx, hx, ih (fun hc => h (List.mem_cons_of_mem x hc))]

theorem colIdx_of_mem {cols : List String} {c : String} (h : c ∈ cols) :
    ∃ i, colIdx cols c = some i ∧ i < cols.length := by
  induction cols with
  | nil => cases h
  | cons x t ih =>
    by_cases hx : x = c
    · exact ⟨0, by simp [colIdx, hx], by simp⟩
    · obtain ⟨i, hi, hlt⟩ := ih (by cases h with
        | head => exact absurd rfl hx
        | tail _ h => exact h)
      exact ⟨i + 1, by simp [colIdx, hx, hi], by simpa using Nat.succ_lt_succ hlt⟩

theorem colIdx_append_of_some {l₁ : List String} {c : String} {i : Nat}
    (h : colIdx l₁ c = some i) (l₂ : List String) :
    colIdx (l₁ ++ l₂) c = some i := by
  induction l₁ generalizing i with
  | nil => simp [colIdx] at h
  | cons x t ih =>
    by_cases hx : x = c
    · simp [colIdx, hx] at h ⊢; exact h
    · simp only [colIdx, hx, if_false, Option.map_eq_some'] at h
      obtain ⟨j, hj, rfl⟩ := h
      simp [colIdx, hx, ih hj]

theorem colIdx_append_of_none {l₁ : List String} {c : String}
    (h : colIdx l₁ c = none) (l₂ : List String) :
    colIdx (l₁ ++ l₂) c = (colIdx l₂ c).map (fun i => i + l₁.length) := by
  induction l₁ with
  | nil => simp [colIdx]
  | cons x t ih =>
    by_cases hx : x = c
    · simp [colIdx, hx] at h
    · simp only [colIdx, hx, if_false, Option.map_eq_none'] at h
      have hc : colIdx ((x :: t) ++ l₂) c = (colIdx (t ++ l₂) c).map (fun i => i + 1) := by
        simp [colIdx, hx]
      rw [hc, ih h, Option.map_map]
      cases colIdx l₂ c with
      | none => rfl
      | some j =>
        simp only [Option.map_some', Function.comp_apply, List.length_cons,
          Option.some.injEq]
        omega

theorem getCell_of_not_mem {cols : List String} {c : String} (h : c ∉ cols)
    (row : List Val) : getCell cols row c = Val.nan := by
  simp [getCell, colIdx_of_not_mem h]

/-- Appending columns (and cells) on the right does not change the cells of
the existing columns. -/
theorem getCell_append_keep {cols : List String} {c : String} (h : c ∈ cols)
    {r : List Val} (hr : r.length = cols.length) (ext : List String) (rext : List Val) :
    getCell (cols ++ ext) (r ++ rext) c = getCell cols r c := by
  obtain ⟨i, hi, hlt⟩ := colIdx_of_mem h
  unfold getCell
  rw [hi, colIdx_append_of_some hi]
  exact List.getD_append r rext Val.nan i (by omega)

/-- Reading a freshly appended column yields the appended cell. -/
theorem getCell_append_new {cols : List String} {c : String} (h : c ∉ cols)
    {r : List Val} (hr : r.length = cols.length) (v : Val)
    (ext : List String) (rext : List Val) :
    getCell (cols ++ c :: ext) (r ++ v :: rext) c = v := by
  have h2 : colIdx (c :: ext) c = some 0 := by simp [colIdx]
  unfold getCell
  rw [colIdx_append_of_none (colIdx_of_not_mem h), h2]
  show (r ++ v :: rext).getD (0 + cols.length) Val.nan = v
  rw [List.getD_append_right _ _ _ _ (by omega)]
  simp [hr]

/-! ### `idxmax` returns the first maximal numeric entry -/

theorem getD_mem {l : List Val} {i : Nat} (h : i < l.length) (d : Val) :
    l.getD i d ∈ l := by
  induction l generalizing i with
  | nil => simp at h
  | cons a t ih =>
    cases i with
    | zero => simp
    | succ j =>
      simp only [List.getD_cons_succ]
      exact List.mem_cons_of_mem a (ih (by simpa using h))

theorem idxmax_cons_other {v : Val} (hv : ∀ q : ℚ, v ≠ Val.num q) (t : List Val) :
    idxmax (v :: t) = (idxmax t).map (fun p => (p.1 + 1, p.2)) := by
  cases v with
  | num q => exact absurd rfl (hv q)
  | str s => rfl
  | bool b => rfl
  | nan => rfl
  | inf => rfl

theorem idxmax_none {xs : List Val} (h : idxmax xs = none) :
    ∀ v ∈ xs, ∀ q : ℚ, v ≠ Val.num q := by
  induction xs with
  | nil => simp
  | cons v t ih =>
    intro w hw q hwq
    subst hwq
    have hv : ∀ q₀ : ℚ, v ≠ Val.num q₀ := by
      intro q₀ he
      subst he
      rw [idxmax] at h
      cases hr : (idxmax t).map (fun p => (p.1 + 1, p.2)) with
      | none => rw [hr] at h; exact Option.noConfusion h
      | some p =>
        rw [hr] at h
        rcases p with ⟨j, m⟩
        by_cases hq : q₀ < m <;> simp [hq] at h
    have ht : idxmax t = none := by
      rw [idxmax_cons_other hv] at h
      exact Option.map_eq_none'.mp h
    rcases List.mem_cons.mp hw with rfl | hwt
    · exact hv q rfl
    · exact ih ht _ hwt q rfl

theorem idxmax_spec :
    ∀ (xs : List Val) (i : Nat) (m : ℚ), idxmax xs = some (i, m) →
      i < xs.length ∧ xs.getD i Val.nan = Val.num m ∧
      (∀ j, j < i → ∀ q : ℚ, xs.getD j Val.nan = Val.num q → q < m) ∧
      (∀ j, j < xs.length → ∀ q : ℚ, xs.getD j Val.nan = Val.num q → q ≤ m) := by
  intro xs
  induction xs with
  | nil => intro i m h; exact Option.noConfusion h
  | cons v t ih =>
    intro i m h
    by_cases hv : ∃ q : ℚ, v = Val.num q
    · obtain ⟨q₀, rfl⟩ := hv
      rw [idxmax] at h
      cases hr : idxmax t with
      | none =>
        rw [hr] at h
        simp only [Option.map_none', Option.some.injEq, Prod.mk.injEq] at h
        obtain ⟨h1, h2⟩ := h; subst h1; subst h2
        refine ⟨by simp, by simp, by omega, ?_⟩
        intro j hj q hq
        cases j with
        | zero =>
          simp only [List.getD_cons_zero, Val.num.injEq] at hq
          exact le_of_eq hq.symm
        | succ j' =>
          simp only [List.getD_cons_succ] at hq
          have hj' : j' < t.length := by simpa using hj
          exact absurd hq (idxmax_none hr _ (getD_mem hj' _) q)
      | some p =>
        rcases p with ⟨j₀, m₀⟩
        rw [hr] at h
        simp only [Option.map_some'] at h
        obtain ⟨hlt₀, hget₀, hearl₀, hall₀⟩ := ih j₀ m₀ hr
        by_cases hq : q₀ < m₀
        · rw [if_pos hq] at h
          simp only [Option.some.injEq, Prod.mk.injEq] at h
          obtain ⟨h1, h2⟩ := h; subst h1; subst h2
          refine ⟨by simpa using Nat.succ_lt_succ hlt₀, by simpa using hget₀, ?_, ?_⟩
          · intro j hj q hqq
            cases j with
            | zero =>
              simp only [List.getD_cons_zero, Val.num.injEq] at hqq
              exact hqq ▸ hq
            | succ j' =>
              simp only [List.getD_cons_succ] at hqq
              exact hearl₀ j' (by omega) q hqq
          · intro j hj q hqq
            cases j with
            | zero =>
              simp only [List.getD_cons_zero, Val.num.injEq] at hqq
              exact hqq ▸ le_of_lt hq
            | succ j' =>
              simp only [List.getD_cons_succ] at hqq
              exact hall₀ j' (by simpa using hj) q hqq
        · rw [if_neg hq] at h
          simp only [Option.some.injEq, Prod.mk.injEq] at h
          obtain ⟨h1, h2⟩ := h; subst h1; subst h2
          have hge : m₀ ≤ q₀ := not_lt.mp hq
          refine ⟨by simp, by simp, by omega, ?_⟩
          intro j hj q hqq
          cases j with
          | zero =>
            simp only [List.getD_cons_zero, Val.num.injEq] at hqq
            exact le_of_eq hqq.symm
          | succ j' =>
            simp only [List.getD_cons_succ] at hqq
            exact le_trans (hall₀ j' (by simpa using hj) q hqq) hge
    · have hv' : ∀ q : ℚ, v ≠ Val.num q := fun q he => hv ⟨q, he⟩
      rw [idxmax_cons_other hv'] at h
      rw [Option.map_eq_some'] at h
      obtain ⟨⟨j₀, m₀⟩, hr, he⟩ := h
      simp only [Prod.mk.injEq] at he
      obtain ⟨h1, h2⟩ := he; subst h1; subst h2
      obtain ⟨hlt₀, hget₀, hearl₀, hall₀⟩ := ih j₀ m₀ hr
      refine ⟨by simpa using Nat.succ_lt_succ hlt₀, by simpa using hget₀, ?_, ?_⟩
      · intro j hj q hqq
        cases j with
        | zero =>
          simp only [List.getD_cons_zero] at hqq
          exact absurd hqq (hv' q)
        | succ j' =>
          simp only [List.getD_cons_succ] at hqq
          exact hearl₀ j' (by omega) q hqq
      · intro j hj q hqq
        cases j with
        | zero =>
          simp only [List.getD_cons_zero] at hqq
          exact absurd hqq (hv' q)
        | succ j' =>
          simp only [List.getD_cons_succ] at hqq
          exact hall₀ j' (by simpa using hj) q hqq

/-! ### The `_df_best_odds` loop establishes max value and first-achiever book -/

theorem bestFold_preserves (df : DF) :
    ∀ (cs : List String) (tmp out : Series) (k : String),
      (∀ c ∈ cs, c ≠ k ∧ bookColOf c ≠ k) →
      bestFold df tmp cs = Except.ok out →
      lookupKV out k = lookupKV tmp k := by
  intro cs
  induction cs with
  | nil =>
    intro tmp out k _ h
    simp only [bestFold, Except.ok.injEq] at h
    rw [h]
  | cons c cs ih =>
    intro tmp out k hk h
    rw [bestFold] at h
    cases hr : idxmax (df.col c) with
    | none => rw [hr] at h; exact Except.noConfusion h
    | some p =>
      rcases p with ⟨i, m⟩
      rw [hr] at h
      have h2 := ih _ out k (fun c' hc' => hk c' (List.mem_cons_of_mem _ hc')) h
      rw [h2, lookupKV_setKV_ne _ _ (hk c (List.mem_cons_self _ _)).2,
        lookupKV_setKV_ne _ _ (hk c (List.mem_cons_self _ _)).1]

theorem bestFold_attains (df : DF) :
    ∀ (cs : List String) (tmp out : Series) (col : String),
      col ∈ cs → cs.Nodup →
      (∀ c ∈ cs, bookColOf c ≠ col ∧ c ≠ bookColOf col ∧
        (c ≠ col → bookColOf c ≠ bookColOf col)) →
      bestFold df tmp cs = Except.ok out →
      ∃ i m, idxmax (df.col col) = some (i, m) ∧
        lookupKV out col = some (Val.num m) ∧
        lookupKV out (bookColOf col) = some (df.cell i "book") := by
  intro cs
  induction cs with
  | nil => intro tmp out col hmem; cases hmem
  | cons c cs ih =>
    intro tmp out col hmem hnd hfr h
    rw [bestFold] at h
    cases hr : idxmax (df.col c) with
    | none => rw [hr] at h; exact Except.noConfusion h
    | some p =>
      rcases p with ⟨i, m⟩
      rw [hr] at h
      obtain ⟨hc_notin, hnd'⟩ := List.nodup_cons.mp hnd
      by_cases hcc : c = col
      · subst hcc
        refine ⟨i, m, hr, ?_, ?_⟩
        · have hpres := bestFold_preserves df cs _ out c
            (fun c' hc' => ⟨fun he => hc_notin (he ▸ hc'),
              (hfr c' (List.mem_cons_of_mem _ hc')).1⟩) h
          rw [hpres, lookupKV_setKV_ne _ _ (hfr c (List.mem_cons_self _ _)).1,
            lookupKV_setKV_self]
        · have hpres := bestFold_preserves df cs _ out (bookColOf c)
            (fun c' hc' => ⟨(hfr c' (List.mem_cons_of_mem _ hc')).2.1,
              (hfr c' (List.mem_cons_of_mem _ hc')).2.2
                (fun he => hc_notin (he ▸ hc'))⟩) h
          rw [hpres, lookupKV_setKV_self]
      · have hmem' : col ∈ cs := by
          rcases List.mem_cons.mp hmem with he | hm
          · exact absurd he.symm hcc
          · exact hm
        exact ih _ out col hmem' hnd'
          (fun c' hc' => hfr c' (List.mem_cons_of_mem _ hc')) h

/-- C1: for every match group (frame) that aggregates without error, each
outcome column's emitted value is the maximum of that column over the group
ignoring missing values, and the sibling `<outcome>_book` entry is the
`book` of the first row (in iteration order) achieving that maximum. -/
theorem best_odds_row_max (df : DF) (tmp : Series) (col : String)
    (hnd : df.cols.Nodup) (hfr : bookColsFresh df.cols = true)
    (hok : _df_best_odds df = Except.ok tmp)
    (hcol : col ∈ oddsColumns df.cols) :
    ∃ i m, i < df.rows.length ∧
      (df.col col).getD i Val.nan = Val.num m ∧
      (∀ j, j < i → ∀ q : ℚ, (df.col col).getD j Val.nan = Val.num q → q < m) ∧
      (∀ j, j < df.rows.length → ∀ q : ℚ,
        (df.col col).getD j Val.nan = Val.num q → q ≤ m) ∧
      lookupKV tmp col = some (Val.num m) ∧
      lookupKV tmp (bookColOf col) = some (df.cell i "book") := by
  have hfr' : ∀ c ∈ oddsColumns df.cols, bookColOf c ≠ c ∧
      ∀ c' ∈ oddsColumns df.cols,
        bookColOf c' ≠ c ∧ (c = c' ∨ bookColOf c' ≠ bookColOf c) := by
    intro c hc
    have := hfr
    unfold bookColsFresh at this
    rw [List.all_eq_true] at this
    have h1 := this c hc
    rw [Bool.and_eq_true, bne_iff_ne, List.all_eq_true] at h1
    refine ⟨h1.1, ?_⟩
    intro c' hc'
    have h2 := h1.2 c' hc'
    rw [Bool.and_eq_true, bne_iff_ne, Bool.or_eq_true, beq_iff_eq] at h2
    exact ⟨h2.1, h2.2.imp id (fun hb => bne_iff_ne.mp hb)⟩
  unfold _df_best_odds at hok
  by_cases hbook : "book" ∈ df.cols
  · rw [if_pos hbook] at hok
    cases hh : df.rows.head? with
    | none => rw [hh] at hok; exact Except.noConfusion hok
    | some row0 =>
      rw [hh] at hok
      have hfresh : ∀ c ∈ oddsColumns df.cols, bookColOf c ≠ col ∧
          c ≠ bookColOf col ∧ (c ≠ col → bookColOf c ≠ bookColOf col) := by
        intro c hc
        refine ⟨((hfr' col hcol).2 c hc).1, ?_, ?_⟩
        · exact fun he => ((hfr' c hc).2 col hcol).1 he.symm
        · intro hne
          rcases ((hfr' col hcol).2 c hc).2 with he | hb
          · exact absurd he.symm hne
          · exact hb
      obtain ⟨i, m, hidx, hv, hb⟩ := bestFold_attains df (oddsColumns df.cols)
        _ tmp col hcol (List.Nodup.filter _ hnd) hfresh hok
      obtain ⟨hlt, hget, hearl, hall⟩ := idxmax_spec (df.col col) i m hidx
      refine ⟨i, m, ?_, hget, hearl, ?_, hv, hb⟩
      · simpa [DF.col] using hlt
      · intro j hj
        exact hall j (by simpa [DF.col] using hj)
  · rw [if_neg hbook] at hok; exact Except.noConfusion hok

/-! ### Concrete tables used by witnesses and counterexamples -/

/-- Scenario A of the spec: two bookmakers quoting one match. -/
def dfScenarioA : DF :=
  { cols := ["league", "match", "book", "home_odds", "draw_odds", "away_odds"]
    rows := [[Val.str "L", Val.str "A - B", Val.str "x", Val.num 2, Val.num 3, Val.num 4],
             [Val.str "L", Val.str "A - B", Val.str "y", Val.num (mkRat 5 2),
              Val.num (mkRat 14 5), Val.num (mkRat 7 2)]] }

/-- The best-odds Series `_df_best_odds` emits for `dfScenarioA`. -/
def tmpScenarioA : Series :=
  [("league", Val.str "L"), ("match", Val.str "A - B"),
   ("home_odds", Val.num (mkRat 5 2)), ("home_book", Val.str "y"),
   ("draw_odds", Val.num 3), ("draw_book", Val.str "x"),
   ("away_odds", Val.num 4), ("away_book", Val.str "x")]

/-- Witness for `best_odds_row_max` at Scenario A's `home_odds` column. -/
theorem best_odds_row_max_witness :
    ∃ i m, i < dfScenarioA.rows.length ∧
      (dfScenarioA.col "home_odds").getD i Val.nan = Val.num m ∧
      (∀ j, j < i → ∀ q : ℚ,
        (dfScenarioA.col "home_odds").getD j Val.nan = Val.num q → q < m) ∧
      (∀ j, j < dfScenarioA.rows.length → ∀ q : ℚ,
        (dfScenarioA.col "home_odds").getD j Val.nan = Val.num q → q ≤ m) ∧
      lookupKV tmpScenarioA "home_odds" = some (Val.num m) ∧
      lookupKV tmpScenarioA (bookColOf "home_odds") =
        some (dfScenarioA.cell i "book") :=
  best_odds_row_max dfScenarioA tmpScenarioA "home_odds" (by decide) (by decide)
    (by decide) (by decide)

/-- A row quoting an odds value of `0`. -/
def dfZeroOdds : DF :=
  { cols := ["league", "match", "home_odds", "away_odds"]
    rows := [[Val.str "L", Val.str "A - B", Val.num 0, Val.num 2]] }

/-- C4: on a row with a zero odds value, `check_arbitrage` raises no error:
it silently computes `reciprocal_sum = +inf` (via the vectorised `1/0`),
sets `arbitrage = False` and drops the row, contradicting the required
data-quality failure. -/
theorem zero_odds_silently_inf :
    check_arbitrage dfZeroOdds =
      ({ cols := ["league", "match", "home_odds", "away_odds",
                  "reciprocal_sum", "arbitrage"]
         rows := [[Val.str "L", Val.str "A - B", Val.num 0, Val.num 2,
                   Val.inf, Val.bool false]] },
       { cols := ["league", "match", "home_odds", "away_odds",
                  "reciprocal_sum", "arbitrage"]
         rows := [] }) := by
  decide

/-- A healthy observation used to show data loss on pipeline abort. -/
def obsHealthy : Obs := [("book", Val.str "bet365"), ("home_odds", Val.num 2)]

def metaEngland : LeagueMeta := ⟨"football", "England", "Premier League"⟩

def metaSpain : LeagueMeta := ⟨"football", "Spain", "LaLiga"⟩

/-- C5: a navigation failure while fetching the first league makes
`get_odds` abort with the error — the second league's healthy observations
(collectible on their own, second conjunct) never reach the output. -/
theorem league_fetch_failure_aborts_pipeline :
    get_odds [(metaEngland, LeagueFetch.navError),
              (metaSpain, LeagueFetch.matches [MatchFetch.ok [obsHealthy]])] =
      Except.error "navigation error in league page" ∧
    get_odds [(metaSpain, LeagueFetch.matches [MatchFetch.ok [obsHealthy]])] =
      Except.ok [addMeta metaSpain obsHealthy] := by
  exact ⟨by decide, by decide⟩

/-- Two match groups in one league; the first group's `home_odds` column is
entirely missing, the second group is perfectly healthy. -/
def dfAllNaNColumn : DF :=
  { cols := ["league", "match", "book", "home_odds", "away_odds"]
    rows := [[Val.str "L", Val.str "A - B", Val.str "x", Val.nan, Val.num 2],
             [Val.str "L", Val.str "A - B", Val.str "y", Val.nan, Val.num 3],
             [Val.str "L", Val.str "C - D", Val.str "x", Val.num 2, Val.num 3]] }

/-- C6: a group whose outcome column holds only missing values makes
`idxmax` fail, and the error aborts the whole aggregation batch — the
healthy `C - D` group is lost too, instead of the column pair being
omitted or nulled. -/
theorem all_nan_column_aborts_batch :
    get_df_best_odds dfAllNaNColumn =
      Except.error "ValueError: idxmax of an all-NA column" := by
  decide

/-- A plausible already-aggregated Best-Odds table (no `book` column; one
`<outcome>_odds`/`<outcome>_book` pair per outcome). -/
def dfAggregated : DF :=
  { cols := ["league", "match", "home_odds", "home_book", "away_odds", "away_book"]
    rows := [[Val.str "L", Val.str "A - B", Val.num (mkRat 5 2), Val.str "y",
              Val.num 4, Val.str "x"]] }

/-- C7 counterexample: re-aggregating an already-aggregated table does not
succeed — it fails with the `KeyError` for the absent `book` column. -/
theorem reaggregation_raises_keyerror :
    get_df_best_odds dfAggregated = Except.error "KeyError: book" := by
  decide

/-- C7 amended: on any non-empty frame lacking a `book` column — in
particular any aggregated Best-Odds table — re-aggregation fails with
`KeyError: book` (so aggregation is not idempotent on its own output). -/
theorem reaggregation_fails_without_book_column (df : DF)
    (hbook : "book" ∉ df.cols) (hne : df.rows ≠ []) :
    get_df_best_odds df = Except.error "KeyError: book" := by
  obtain ⟨r, rs, hr⟩ : ∃ r rs, df.rows = r :: rs := by
    cases hrows : df.rows with
    | nil => exact absurd hrows hne
    | cons r rs => exact ⟨r, rs, rfl⟩
  have hdfb : ∀ d : DF, d.cols = df.cols → _df_best_odds d = Except.error "KeyError: book" := by
    intro d hd
    unfold _df_best_odds
    rw [hd, if_neg hbook]
  have hu : uniqueVals (df.col "league") =
      getCell df.cols r "league" ::
        uniqueAux [getCell df.cols r "league"]
          (rs.map (fun x => getCell df.cols x "league")) := by
    rw [DF.col, hr, List.map_cons]
    simp [uniqueVals, uniqueAux]
  have hsubrows : (subsetWhere df "league" (getCell df.cols r "league")).rows =
      r :: rs.filter (fun r' =>
        decide (getCell df.cols r' "league" = getCell df.cols r "league")) := by
    simp only [subsetWhere, hr, List.filter_cons]
    rw [if_pos (by simp)]
  have hmcol : uniqueVals
      ((subsetWhere df "league" (getCell df.cols r "league")).col "match") =
      getCell df.cols r "match" ::
        uniqueAux [getCell df.cols r "match"]
          ((rs.filter (fun r' =>
            decide (getCell df.cols r' "league" = getCell df.cols r "league"))).map
              (fun x => getCell df.cols x "match")) := by
    rw [DF.col, hsubrows, List.map_cons]
    simp [uniqueVals, uniqueAux, subsetWhere]
  unfold get_df_best_odds
  rw [hu]
  simp only [leagueFold]
  rw [hmcol]
  simp only [matchFold]
  rw [hdfb (subsetWhere (subsetWhere df "league" (getCell df.cols r "league"))
    "match" (getCell df.cols r "match")) rfl]

/-- C7 amended witness: the concrete aggregated table satisfies the
hypotheses, and re-aggregating it yields the `KeyError`. -/
theorem reaggregation_fails_without_book_column_witness :
    get_df_best_odds
      { cols := ["league", "match", "home_odds", "home_book"]
        rows := [[Val.str "M", Val.str "C - D", Val.num 2, Val.str "z"]] } =
      Except.error "KeyError: book" :=
  reaggregation_fails_without_book_column _ (by decide) (by decide)

/-- All-distinct odds so any in-place change is visible. -/
def dfCaller : DF :=
  { cols := ["league", "match", "home_odds", "away_odds"]
    rows := [[Val.str "L", Val.str "A - B", Val.num 3, Val.num 3]] }

/-- C8 counterexample: after `check_arbitrage(df)` the caller's table is
not the table passed in — the call added columns to it in place. -/
theorem check_arbitrage_mutates_caller :
    (check_arbitrage dfCaller).1 ≠ dfCaller := by
  decide

theorem setColumn_cols_of_not_mem {df : DF} {c : String} (h : c ∉ df.cols)
    (vals : List Val) : (setColumn df c vals).cols = df.cols ++ [c] := by
  unfold setColumn
  rw [colIdx_of_not_mem h]

theorem setColumn_rows_of_not_mem {df : DF} {c : String} (h : c ∉ df.cols)
    (vals : List Val) :
    (setColumn df c vals).rows = List.zipWith (fun r v => r ++ [v]) df.rows vals := by
  unfold setColumn
  rw [colIdx_of_not_mem h]

theorem setColumn_setColumn_cols {df : DF} {c₁ c₂ : String}
    (h1 : c₁ ∉ df.cols) (h2 : c₂ ∉ df.cols) (h12 : c₂ ≠ c₁)
    (v1 v2 : List Val) :
    (setColumn (setColumn df c₁ v1) c₂ v2).cols = df.cols ++ [c₁, c₂] := by
  have ha := setColumn_cols_of_not_mem h1 v1
  have hb : c₂ ∉ (setColumn df c₁ v1).cols := by
    rw [ha]
    intro hmem
    rcases List.mem_append.mp hmem with hx | hx
    · exact h2 hx
    · simp at hx; exact h12 hx
  rw [setColumn_cols_of_not_mem hb, ha, List.append_assoc]
  rfl

/-- C8 amended: `get_df_best_odds` and `check_arbitrage` are deterministic
functions of their inputs, but `check_arbitrage` is not frame-preserving:
the caller-visible table after the call is the input with the
`reciprocal_sum` and `arbitrage` columns appended in place, never the
input itself. -/
theorem check_arbitrage_appends_columns_in_place (df : DF)
    (hrs : "reciprocal_sum" ∉ df.cols) (harb : "arbitrage" ∉ df.cols) :
    (check_arbitrage df).1.cols = df.cols ++ ["reciprocal_sum", "arbitrage"] ∧
    (check_arbitrage df).1 ≠ df := by
  have hcols : (check_arbitrage df).1.cols =
      df.cols ++ ["reciprocal_sum", "arbitrage"] :=
    setColumn_setColumn_cols hrs harb (by decide) _ _
  refine ⟨hcols, fun he => ?_⟩
  have hc := congrArg DF.cols he
  rw [hcols] at hc
  have hlen := congrArg List.length hc
  simp only [List.length_append, List.length_cons, List.length_nil] at hlen
  omega

/-- C8 amended witness. -/
theorem check_arbitrage_appends_columns_in_place_witness :
    (check_arbitrage dfCaller).1.cols =
      dfCaller.cols ++ ["reciprocal_sum", "arbitrage"] ∧
    (check_arbitrage dfCaller).1 ≠ dfCaller :=
  check_arbitrage_appends_columns_in_place dfCaller (by decide) (by decide)

/-- A handled match failure contributes nothing to the league fold. -/
theorem leagueMatchFold_skip (meta : LeagueMeta) (bad : MatchFetch)
    (hbad : _get_odds_from_match bad = Except.ok []) :
    ∀ (pre post : List MatchFetch) (acc : List Obs),
      leagueMatchFold meta acc (pre ++ bad :: post) =
        leagueMatchFold meta acc (pre ++ post) := by
  intro pre
  induction pre with
  | nil =>
    intro post acc
    simp only [List.nil_append, leagueMatchFold, hbad]
    simp
  | cons f fs ih =>
    intro post acc
    simp only [List.cons_append, leagueMatchFold]
    cases _get_odds_from_match f with
    | error e => rfl
    | ok data => exact ih post _

/-- C9: the two handled per-match failure conditions (`No data found`, and
a parse error while extracting players/time/odds) yield an empty
observation set instead of propagating, and a league containing such a
failed match produces exactly the observations of its other matches. -/
theorem match_failure_isolation :
    _get_odds_from_match MatchFetch.noData = Except.ok [] ∧
    _get_odds_from_match MatchFetch.parseError = Except.ok [] ∧
    (∀ (meta : LeagueMeta) (pre post : List MatchFetch),
      _get_odds_from_league meta
          (LeagueFetch.matches (pre ++ MatchFetch.noData :: post)) =
        _get_odds_from_league meta (LeagueFetch.matches (pre ++ post))) ∧
    (∀ (meta : LeagueMeta) (pre post : List MatchFetch),
      _get_odds_from_league meta
          (LeagueFetch.matches (pre ++ MatchFetch.parseError :: post)) =
        _get_odds_from_league meta (LeagueFetch.matches (pre ++ post))) := by
  refine ⟨rfl, rfl, ?_, ?_⟩
  · intro meta pre post
    exact leagueMatchFold_skip meta MatchFetch.noData rfl pre post []
  · intro meta pre post
    exact leagueMatchFold_skip meta MatchFetch.parseError rfl pre post []

/-! ### List helper lemmas for the detector proofs -/

theorem zipWith_map_self {α β γ : Type _} (k : α → β → γ) (f : α → β) (l : List α) :
    List.zipWith k l (l.map f) = l.map (fun a => k a (f a)) := by
  induction l with
  | nil => rfl
  | cons a t ih => simp [ih]

theorem zipWith_map_map {α β γ δ : Type _} (k : β → γ → δ) (f : α → β) (g : α → γ)
    (l : List α) :
    List.zipWith k (l.map f) (l.map g) = l.map (fun a => k (f a) (g a)) := by
  induction l with
  | nil => rfl
  | cons a t ih => simp [ih]

theorem map_eq_self_of {α : Type _} {f : α → α} {l : List α}
    (h : ∀ a ∈ l, f a = a) : l.map f = l := by
  induction l with
  | nil => rfl
  | cons a t ih =>
    rw [List.map_cons, h a (List.mem_cons_self _ _),
      ih (fun a ha => h a (List.mem_cons_of_mem _ ha))]

theorem set_append_len {α : Type _} (r l : List α) (v : α) :
    (r ++ l).set r.length v = r ++ l.set 0 v := by
  induction r with
  | nil => rfl
  | cons a t ih => simp [List.set, ih]

theorem getCell_append_two_fst {cols : List String} {c₁ : String} (c₂ : String)
    (h1 : c₁ ∉ cols) {r : List Val} (hr : r.length = cols.length) (v₁ v₂ : Val) :
    getCell (cols ++ [c₁, c₂]) (r ++ [v₁, v₂]) c₁ = v₁ :=
  getCell_append_new h1 hr v₁ [c₂] [v₂]

theorem getCell_append_two_snd {cols : List String} {c₁ c₂ : String}
    (h1 : c₂ ∉ cols) (h2 : c₂ ≠ c₁) {r : List Val} (hr : r.length = cols.length)
    (v₁ v₂ : Val) :
    getCell (cols ++ [c₁, c₂]) (r ++ [v₁, v₂]) c₂ = v₂ := by
  have hx : colIdx [c₁, c₂] c₂ = some 1 := by
    have : c₁ ≠ c₂ := fun he => h2 he.symm
    simp [colIdx, this]
  rw [getCell, colIdx_append_of_none (colIdx_of_not_mem h1), hx]
  show (r ++ [v₁, v₂]).getD (1 + cols.length) Val.nan = v₂
  rw [List.getD_append_right _ _ _ _ (by omega)]
  have h3 : 1 + cols.length - r.length = 1 := by omega
  rw [h3]
  rfl

/-! ### The float sum agrees with the rational sum on clean rows -/

theorem foldl_vadd_num (l : List Val) :
    (∀ v ∈ l, v = Val.nan ∨ ∃ q : ℚ, v = Val.num q) →
    ∀ a : ℚ, l.foldl vadd (Val.num a) = Val.num (a + (l.filterMap toNum?).sum) := by
  induction l with
  | nil => intro _ a; simp [toNum?]
  | cons v t ih =>
    intro hl a
    rcases hl v (List.mem_cons_self _ _) with hv | ⟨q, hv⟩ <;> subst hv
    · rw [List.foldl_cons]
      show List.foldl vadd (Val.num a) t = _
      rw [ih (fun w hw => hl w (List.mem_cons_of_mem _ hw)) a]
      simp [toNum?]
    · rw [List.foldl_cons]
      show List.foldl vadd (Val.num (a + q)) t = _
      rw [ih (fun w hw => hl w (List.mem_cons_of_mem _ hw)) (a + q)]
      simp [toNum?, add_assoc]

theorem vsum_eq (l : List Val)
    (hl : ∀ v ∈ l, v = Val.nan ∨ ∃ q : ℚ, v = Val.num q) :
    vsum l = Val.num ((l.filterMap toNum?).sum) := by
  rw [vsum, foldl_vadd_num l hl 0, zero_add]

/-- On a row whose odds cells are missing-or-nonzero-numeric, the code's
float reciprocal sum equals the spec's rational reciprocal sum. -/
theorem vsumRow_eq_rowRecipSum (df : DF) (r : List Val)
    (hodds : ∀ c ∈ oddsColumns df.cols, oddsCellOk (getCell df.cols r c) = true) :
    vsumRow df r = Val.num (rowRecipSum df.cols r) := by
  rw [vsumRow, vsum_eq]
  · unfold rowRecipSum
    congr 1
    rw [List.filterMap_map]
    refine congrArg List.sum (List.filterMap_congr ?_)
    intro c hc
    have h := hodds c hc
    cases hv : getCell df.cols r c with
    | num q =>
      rw [hv] at h
      simp only [oddsCellOk, bne_iff_ne] at h
      simp [Function.comp, vinv, toNum?, h, hv]
    | nan => simp [Function.comp, vinv, toNum?, hv]
    | str s => rw [hv] at h; simp [oddsCellOk] at h
    | bool b => rw [hv] at h; simp [oddsCellOk] at h
    | inf => rw [hv] at h; simp [oddsCellOk] at h
  · intro v hv
    rw [List.mem_map] at hv
    obtain ⟨c, hc, rfl⟩ := hv
    have h := hodds c hc
    cases hcell : getCell df.cols r c with
    | num q =>
      rw [hcell] at h
      simp only [oddsCellOk, bne_iff_ne] at h
      right
      exact ⟨1 / q, by simp [vinv, h]⟩
    | nan => left; simp [vinv]
    | str s => rw [hcell] at h; simp [oddsCellOk] at h
    | bool b => rw [hcell] at h; simp [oddsCellOk] at h
    | inf => rw [hcell] at h; simp [oddsCellOk] at h

theorem oddsColumns_append_nonodds (cols : List String) {ext : List String}
    (hext : ∀ c ∈ ext, hasOdds c = false) :
    oddsColumns (cols ++ ext) = oddsColumns cols := by
  unfold oddsColumns
  have hnil : ext.filter (fun c => hasOdds c) = [] :=
    List.filter_eq_nil_iff.mpr (by simpa using hext)
  rw [List.filter_append, hnil, List.append_nil]

/-- Appending a non-odds column does not change the spec reciprocal sum. -/
theorem rowRecipSum_append_nonodds (cols : List String) (name : String) (v : Val)
    (r : List Val) (hname : hasOdds name = false) (hlen : r.length = cols.length) :
    rowRecipSum (cols ++ [name]) (r ++ [v]) = rowRecipSum cols r := by
  unfold rowRecipSum
  rw [oddsColumns_append_nonodds cols (by simpa using hname)]
  apply congrArg
  apply List.filterMap_congr
  intro c hc
  have hcmem : c ∈ cols := (List.mem_filter.mp hc).1
  rw [getCell_append_keep hcmem hlen]

/-- Structure of one `check_arbitrage` call on a frame without the two
result columns: the caller's frame gains `reciprocal_sum` and `arbitrage`
on the right, and the returned frame keeps exactly the rows whose float
reciprocal sum compares below one, in input order. -/
theorem check_arbitrage_shape (df : DF) (hwf : df.Wf)
    (hrs : "reciprocal_sum" ∉ df.cols) (harb : "arbitrage" ∉ df.cols) :
    (check_arbitrage df).1 =
      { cols := df.cols ++ ["reciprocal_sum", "arbitrage"]
        rows := df.rows.map (fun r =>
          r ++ [vsumRow df r, Val.bool (vltOne (vsumRow df r))]) } ∧
    (check_arbitrage df).2 =
      { cols := df.cols ++ ["reciprocal_sum", "arbitrage"]
        rows := (df.rows.filter (fun r => vltOne (vsumRow df r))).map (fun r =>
          r ++ [vsumRow df r, Val.bool true]) } := by
  have hc : (setColumn df "reciprocal_sum" (recSums df)).cols =
      df.cols ++ ["reciprocal_sum"] := setColumn_cols_of_not_mem hrs _
  have hrowsS1 : (setColumn df "reciprocal_sum" (recSums df)).rows =
      df.rows.map (fun r => r ++ [vsumRow df r]) := by
    rw [setColumn_rows_of_not_mem hrs, recSums, zipWith_map_self]
  have harb1 : "arbitrage" ∉ (setColumn df "reciprocal_sum" (recSums df)).cols := by
    rw [hc]
    intro hm
    rcases List.mem_append.mp hm with hx | hx
    · exact harb hx
    · simp at hx
  have harbsEq : (setColumn df "reciprocal_sum" (recSums df)).rows.map (fun r =>
      Val.bool (vltOne (getCell
        (setColumn df "reciprocal_sum" (recSums df)).cols r "reciprocal_sum"))) =
      df.rows.map (fun r => Val.bool (vltOne (vsumRow df r))) := by
    rw [hrowsS1, List.map_map]
    apply List.map_congr_left
    intro r hrm
    simp only [Function.comp_apply]
    rw [hc, getCell_append_new hrs (hwf.2 r hrm) (vsumRow df r) [] []]
  have h1 : (check_arbitrage df).1.cols = df.cols ++ ["reciprocal_sum", "arbitrage"] := by
    show (setColumn (setColumn df "reciprocal_sum" (recSums df)) "arbitrage" _).cols = _
    rw [setColumn_cols_of_not_mem harb1, hc, List.append_assoc]
    rfl
  have h2 : (check_arbitrage df).1.rows = df.rows.map (fun r =>
      r ++ [vsumRow df r, Val.bool (vltOne (vsumRow df r))]) := by
    show (setColumn (setColumn df "reciprocal_sum" (recSums df)) "arbitrage"
      ((setColumn df "reciprocal_sum" (recSums df)).rows.map _)).rows = _
    rw [setColumn_rows_of_not_mem harb1, harbsEq, hrowsS1, zipWith_map_map]
    apply List.map_congr_left
    intro r hrm
    simp [List.append_assoc]
  have hfst : (check_arbitrage df).1 =
      { cols := df.cols ++ ["reciprocal_sum", "arbitrage"]
        rows := df.rows.map (fun r =>
          r ++ [vsumRow df r, Val.bool (vltOne (vsumRow df r))]) } := by
    calc (check_arbitrage df).1
        = ⟨(check_arbitrage df).1.cols, (check_arbitrage df).1.rows⟩ := rfl
      _ = _ := by rw [h1, h2]
  refine ⟨hfst, ?_⟩
  have h3 : (check_arbitrage df).2 = ⟨(check_arbitrage df).1.cols,
      (check_arbitrage df).1.rows.filter (fun r =>
        decide (getCell (check_arbitrage df).1.cols r "arbitrage" = Val.bool true))⟩ := rfl
  rw [h1, h2] at h3
  have h4 : (df.rows.map (fun r =>
      r ++ [vsumRow df r, Val.bool (vltOne (vsumRow df r))])).filter
      (fun r' => decide (getCell (df.cols ++ ["reciprocal_sum", "arbitrage"]) r'
        "arbitrage" = Val.bool true)) =
      (df.rows.filter (fun r => vltOne (vsumRow df r))).map (fun r =>
        r ++ [vsumRow df r, Val.bool true]) := by
    rw [List.filter_map]
    have h5 : ∀ r ∈ df.rows,
        ((fun r' => decide (getCell (df.cols ++ ["reciprocal_sum", "arbitrage"]) r'
          "arbitrage" = Val.bool true)) ∘ (fun r =>
            r ++ [vsumRow df r, Val.bool (vltOne (vsumRow df r))])) r =
        vltOne (vsumRow df r) := by
      intro r hrm
      simp only [Function.comp_apply]
      rw [getCell_append_two_snd harb (by decide) (hwf.2 r hrm)]
      cases hvb : vltOne (vsumRow df r) <;> simp
    rw [List.filter_congr h5]
    apply List.map_congr_left
    intro r hrm
    have hvb := (List.mem_filter.mp hrm).2
    simp [hvb]
  rw [h4] at h3
  exact h3

/-- C2: on any table whose odds cells are missing-or-nonzero-numeric,
`check_arbitrage` computes each row's `reciprocal_sum` as the rational sum
of `1/odds` over exactly the outcome-odds columns present on that row
(missing cells contribute nothing), sets `arbitrage` to true iff that sum
is below one, and returns exactly the rows with `arbitrage` true in input
order; appending an irrelevant non-odds column never changes the
reciprocal sum. -/
theorem check_arbitrage_spec (df : DF) (hwf : df.Wf) (hodds : OddsCellsOk df)
    (hrs : "reciprocal_sum" ∉ df.cols) (harb : "arbitrage" ∉ df.cols) :
    (check_arbitrage df).1.cols = df.cols ++ ["reciprocal_sum", "arbitrage"] ∧
    (check_arbitrage df).1.rows = df.rows.map (fun r =>
      r ++ [Val.num (rowRecipSum df.cols r),
            Val.bool (decide (rowRecipSum df.cols r < 1))]) ∧
    (check_arbitrage df).2.cols = (check_arbitrage df).1.cols ∧
    (check_arbitrage df).2.rows = (df.rows.filter (fun r =>
      decide (rowRecipSum df.cols r < 1))).map (fun r =>
        r ++ [Val.num (rowRecipSum df.cols r), Val.bool true]) ∧
    (∀ (name : String) (v : Val) (r : List Val), hasOdds name = false →
      r.length = df.cols.length →
      rowRecipSum (df.cols ++ [name]) (r ++ [v]) = rowRecipSum df.cols r) := by
  obtain ⟨h1, h2⟩ := check_arbitrage_shape df hwf hrs harb
  have hval : ∀ r ∈ df.rows, vsumRow df r = Val.num (rowRecipSum df.cols r) :=
    fun r hr => vsumRow_eq_rowRecipSum df r (hodds r hr)
  refine ⟨?_, ?_, ?_, ?_, ?_⟩
  · rw [h1]
  · rw [h1]
    apply List.map_congr_left
    intro r hr
    rw [hval r hr]
    rfl
  · rw [h1, h2]
  · rw [h2]
    have hpred : ∀ r ∈ df.rows,
        vltOne (vsumRow df r) = decide (rowRecipSum df.cols r < 1) := by
      intro r hr
      rw [hval r hr]
      rfl
    show (df.rows.filter (fun r => vltOne (vsumRow df r))).map (fun r =>
      r ++ [vsumRow df r, Val.bool true]) = _
    rw [List.filter_congr hpred]
    apply List.map_congr_left
    intro r hr
    rw [hval r (List.mem_filter.mp hr).1]
  · exact fun name v r hn hlen => rowRecipSum_append_nonodds df.cols name v r hn hlen

/-- A best-odds style table with one arbitrage row and one non-arbitrage
row. -/
def dfDetector : DF :=
  { cols := ["match", "home_odds", "away_odds"]
    rows := [[Val.str "A - B", Val.num 3, Val.num 3],
             [Val.str "C - D", Val.num (mkRat 3 2), Val.num 2]] }

/-- Witness for `check_arbitrage_spec` at a concrete two-row table. -/
theorem check_arbitrage_spec_witness :
    (check_arbitrage dfDetector).1.cols =
      dfDetector.cols ++ ["reciprocal_sum", "arbitrage"] ∧
    (check_arbitrage dfDetector).1.rows = dfDetector.rows.map (fun r =>
      r ++ [Val.num (rowRecipSum dfDetector.cols r),
            Val.bool (decide (rowRecipSum dfDetector.cols r < 1))]) ∧
    (check_arbitrage dfDetector).2.cols = (check_arbitrage dfDetector).1.cols ∧
    (check_arbitrage dfDetector).2.rows = (dfDetector.rows.filter (fun r =>
      decide (rowRecipSum dfDetector.cols r < 1))).map (fun r =>
        r ++ [Val.num (rowRecipSum dfDetector.cols r), Val.bool true]) ∧
    (∀ (name : String) (v : Val) (r : List Val), hasOdds name = false →
      r.length = dfDetector.cols.length →
      rowRecipSum (dfDetector.cols ++ [name]) (r ++ [v]) =
        rowRecipSum dfDetector.cols r) :=
  check_arbitrage_spec dfDetector (by decide) (by decide) (by decide) (by decide)

theorem DF.cols_mk (cols : List String) (rows : List (List Val)) :
    (⟨cols, rows⟩ : DF).cols = cols := rfl

theorem DF.rows_mk (cols : List String) (rows : List (List Val)) :
    (⟨cols, rows⟩ : DF).rows = rows := rfl

theorem setColumn_cols_of_idx {df : DF} {c : String} {i : Nat}
    (h : colIdx df.cols c = some i) (vals : List Val) :
    (setColumn df c vals).cols = df.cols := by
  unfold setColumn
  rw [h]

theorem setColumn_rows_of_idx {df : DF} {c : String} {i : Nat}
    (h : colIdx df.cols c = some i) (vals : List Val) :
    (setColumn df c vals).rows =
      List.zipWith (fun r v => r.set i v) df.rows vals := by
  unfold setColumn
  rw [h]

theorem vltOne_eq_true {v : Val} (h : vltOne v = true) :
    ∃ s : ℚ, v = Val.num s ∧ s < 1 := by
  cases v with
  | num q => exact ⟨q, rfl, by simpa [vltOne] using h⟩
  | str s => simp [vltOne] at h
  | bool b => simp [vltOne] at h
  | nan => simp [vltOne] at h
  | inf => simp [vltOne] at h

/-- C10: the arbitrage detector is idempotent on its own output: the
returned table passes through a second `check_arbitrage` unchanged, the
appended `reciprocal_sum`/`arbitrage` columns are not picked up as odds
columns on the second pass, and every returned row already carries
`arbitrage = True` and a `reciprocal_sum` below one. -/
theorem check_arbitrage_idempotent (df : DF) (hwf : df.Wf)
    (hrs : "reciprocal_sum" ∉ df.cols) (harb : "arbitrage" ∉ df.cols) :
    (check_arbitrage ((check_arbitrage df).2)).2 = (check_arbitrage df).2 ∧
    oddsColumns ((check_arbitrage df).2).cols = oddsColumns df.cols ∧
    (∀ r ∈ ((check_arbitrage df).2).rows,
      getCell ((check_arbitrage df).2).cols r "arbitrage" = Val.bool true ∧
      ∃ s : ℚ, getCell ((check_arbitrage df).2).cols r "reciprocal_sum" = Val.num s ∧
        s < 1) := by
  obtain ⟨h1, h2⟩ := check_arbitrage_shape df hwf hrs harb
  rw [h2]
  have hshape : ∀ r'' ∈ ((df.rows.filter (fun r => vltOne (vsumRow df r))).map
      (fun r => r ++ [vsumRow df r, Val.bool true])),
      ∃ r, r ∈ df.rows ∧ vltOne (vsumRow df r) = true ∧
        r'' = r ++ [vsumRow df r, Val.bool true] := by
    intro r'' h
    obtain ⟨r, hrf, rfl⟩ := List.mem_map.mp h
    exact ⟨r, (List.mem_filter.mp hrf).1, (List.mem_filter.mp hrf).2, rfl⟩
  have hocs2 : oddsColumns (df.cols ++ ["reciprocal_sum", "arbitrage"]) =
      oddsColumns df.cols :=
    oddsColumns_append_nonodds df.cols (by decide)
  have hvsumCols : ∀ (R1 : List (List Val)) (r : List Val),
      r.length = df.cols.length → ∀ v b : Val,
      vsumRow ⟨df.cols ++ ["reciprocal_sum", "arbitrage"], R1⟩ (r ++ [v, b]) =
        vsumRow df r := by
    intro R1 r hlen v b
    show vsum ((oddsColumns (df.cols ++ ["reciprocal_sum", "arbitrage"])).map
      (fun c => vinv (getCell (df.cols ++ ["reciprocal_sum", "arbitrage"])
        (r ++ [v, b]) c))) =
      vsum ((oddsColumns df.cols).map (fun c => vinv (getCell df.cols r c)))
    rw [hocs2]
    apply congrArg vsum
    apply List.map_congr_left
    intro c hc
    rw [getCell_append_keep (List.mem_filter.mp hc).1 hlen]
  have hidx1 : colIdx (df.cols ++ ["reciprocal_sum", "arbitrage"])
      "reciprocal_sum" = some df.cols.length := by
    rw [colIdx_append_of_none (colIdx_of_not_mem hrs)]
    simp [colIdx]
  have hidx2 : colIdx (df.cols ++ ["reciprocal_sum", "arbitrage"])
      "arbitrage" = some (df.cols.length + 1) := by
    have hx : colIdx ["reciprocal_sum", "arbitrage"] "arbitrage" = some 1 := by
      simp [colIdx]
    rw [colIdx_append_of_none (colIdx_of_not_mem harb), hx]
    simp [Nat.add_comm]
  refine ⟨?_, hocs2, ?_⟩
  · -- the second pass returns its input unchanged
    have hA : setColumn
        ⟨df.cols ++ ["reciprocal_sum", "arbitrage"],
         (df.rows.filter (fun r => vltOne (vsumRow df r))).map
           (fun r => r ++ [vsumRow df r, Val.bool true])⟩ "reciprocal_sum"
        (recSums ⟨df.cols ++ ["reciprocal_sum", "arbitrage"],
         (df.rows.filter (fun r => vltOne (vsumRow df r))).map
           (fun r => r ++ [vsumRow df r, Val.bool true])⟩) =
        ⟨df.cols ++ ["reciprocal_sum", "arbitrage"],
         (df.rows.filter (fun r => vltOne (vsumRow df r))).map
           (fun r => r ++ [vsumRow df r, Val.bool true])⟩ := by
      have hAr : (setColumn
          ⟨df.cols ++ ["reciprocal_sum", "arbitrage"],
           (df.rows.filter (fun r => vltOne (vsumRow df r))).map
             (fun r => r ++ [vsumRow df r, Val.bool true])⟩ "reciprocal_sum"
          (recSums ⟨df.cols ++ ["reciprocal_sum", "arbitrage"],
           (df.rows.filter (fun r => vltOne (vsumRow df r))).map
             (fun r => r ++ [vsumRow df r, Val.bool true])⟩)).rows =
          (df.rows.filter (fun r => vltOne (vsumRow df r))).map
            (fun r => r ++ [vsumRow df r, Val.bool true]) := by
        rw [setColumn_rows_of_idx hidx1, recSums]
        show List.zipWith (fun r v => r.set df.cols.length v)
          ((df.rows.filter (fun r => vltOne (vsumRow df r))).map
            (fun r => r ++ [vsumRow df r, Val.bool true]))
          (((df.rows.filter (fun r => vltOne (vsumRow df r))).map
            (fun r => r ++ [vsumRow df r, Val.bool true])).map
              (fun r => vsumRow ⟨df.cols ++ ["reciprocal_sum", "arbitrage"],
                (df.rows.filter (fun r => vltOne (vsumRow df r))).map
                  (fun r => r ++ [vsumRow df r, Val.bool true])⟩ r)) = _
        rw [zipWith_map_self]
        apply map_eq_self_of
        intro r'' hr''
        obtain ⟨r, hrm, hvlt, rfl⟩ := hshape r'' hr''
        rw [hvsumCols _ r (hwf.2 r hrm)]
        rw [show df.cols.length = r.length from (hwf.2 r hrm).symm, set_append_len]
        rfl
      calc setColumn _ "reciprocal_sum" _
          = ⟨(setColumn _ "reciprocal_sum" _).cols,
             (setColumn _ "reciprocal_sum" _).rows⟩ := rfl
        _ = _ := by rw [setColumn_cols_of_idx hidx1, hAr]
    simp only [check_arbitrage]
    rw [hA]
    simp only [DF.cols_mk, DF.rows_mk]
    have hBr : (setColumn
        ⟨df.cols ++ ["reciprocal_sum", "arbitrage"],
         (df.rows.filter (fun r => vltOne (vsumRow df r))).map
           (fun r => r ++ [vsumRow df r, Val.bool true])⟩ "arbitrage"
        (((df.rows.filter (fun r => vltOne (vsumRow df r))).map
          (fun r => r ++ [vsumRow df r, Val.bool true])).map
          (fun r => Val.bool (vltOne (getCell
            (df.cols ++ ["reciprocal_sum", "arbitrage"]) r "reciprocal_sum"))))).rows =
        (df.rows.filter (fun r => vltOne (vsumRow df r))).map
          (fun r => r ++ [vsumRow df r, Val.bool true]) := by
      rw [setColumn_rows_of_idx hidx2]
      show List.zipWith (fun r v => r.set (df.cols.length + 1) v)
        ((df.rows.filter (fun r => vltOne (vsumRow df r))).map
          (fun r => r ++ [vsumRow df r, Val.bool true]))
        (((df.rows.filter (fun r => vltOne (vsumRow df r))).map
          (fun r => r ++ [vsumRow df r, Val.bool true])).map
          (fun r => Val.bool (vltOne (getCell
            (df.cols ++ ["reciprocal_sum", "arbitrage"]) r "reciprocal_sum")))) = _
      rw [zipWith_map_self]
      apply map_eq_self_of
      intro r'' hr''
      obtain ⟨r, hrm, hvlt, rfl⟩ := hshape r'' hr''
      rw [getCell_append_two_fst "arbitrage" hrs (hwf.2 r hrm), hvlt]
      rw [show df.cols.length + 1 = (r ++ [vsumRow df r]).length from by
        simp [hwf.2 r hrm]]
      rw [show r ++ [vsumRow df r, Val.bool true] =
        (r ++ [vsumRow df r]) ++ [Val.bool true] from by simp]
      rw [set_append_len]
      simp
    have hBc : (setColumn
        ⟨df.cols ++ ["reciprocal_sum", "arbitrage"],
         (df.rows.filter (fun r => vltOne (vsumRow df r))).map
           (fun r => r ++ [vsumRow df r, Val.bool true])⟩ "arbitrage"
        (((df.rows.filter (fun r => vltOne (vsumRow df r))).map
          (fun r => r ++ [vsumRow df r, Val.bool true])).map
          (fun r => Val.bool (vltOne (getCell
            (df.cols ++ ["reciprocal_sum", "arbitrage"]) r "reciprocal_sum"))))).cols =
        df.cols ++ ["reciprocal_sum", "arbitrage"] :=
      setColumn_cols_of_idx hidx2 _
    rw [hBr, hBc]
    have hfilter : ((df.rows.filter (fun r => vltOne (vsumRow df r))).map
        (fun r => r ++ [vsumRow df r, Val.bool true])).filter
        (fun r => decide (getCell (df.cols ++ ["reciprocal_sum", "arbitrage"]) r
          "arbitrage" = Val.bool true)) =
        (df.rows.filter (fun r => vltOne (vsumRow df r))).map
          (fun r => r ++ [vsumRow df r, Val.bool true]) := by
      apply List.filter_eq_self.mpr
      intro r'' hr''
      obtain ⟨r, hrm, hvlt, rfl⟩ := hshape r'' hr''
      rw [getCell_append_two_snd harb (by decide) (hwf.2 r hrm)]
      simp
    rw [hfilter]
  · -- every returned row carries arbitrage = True and reciprocal_sum < 1
    intro r'' hr''
    obtain ⟨r, hrm, hvlt, rfl⟩ := hshape r'' hr''
    constructor
    · show getCell (df.cols ++ ["reciprocal_sum", "arbitrage"])
        (r ++ [vsumRow df r, Val.bool true]) "arbitrage" = Val.bool true
      rw [getCell_append_two_snd harb (by decide) (hwf.2 r hrm)]
    · show ∃ s : ℚ, getCell (df.cols ++ ["reciprocal_sum", "arbitrage"])
        (r ++ [vsumRow df r, Val.bool true]) "reciprocal_sum" = Val.num s ∧ s < 1
      rw [getCell_append_two_fst "arbitrage" hrs (hwf.2 r hrm)]
      exact vltOne_eq_true hvlt

/-- Witness for `check_arbitrage_idempotent` at the concrete two-row
table. -/
theorem check_arbitrage_idempotent_witness :
    (check_arbitrage ((check_arbitrage dfDetector).2)).2 =
      (check_arbitrage dfDetector).2 ∧
    oddsColumns ((check_arbitrage dfDetector).2).cols =
      oddsColumns dfDetector.cols ∧
    (∀ r ∈ ((check_arbitrage dfDetector).2).rows,
      getCell ((check_arbitrage dfDetector).2).cols r "arbitrage" = Val.bool true ∧
      ∃ s : ℚ, getCell ((check_arbitrage dfDetector).2).cols r "reciprocal_sum" =
        Val.num s ∧ s < 1) :=
  check_arbitrage_idempotent dfDetector (by decide) (by decide) (by decide)

/-! ### Grouping: `get_df_best_odds` keys groups by (league, match) -/

theorem mem_uniqueAux (a : Val) :
    ∀ (seen l : List Val), a ∈ uniqueAux seen l ↔ a ∈ l ∧ a ∉ seen := by
  intro seen l
  induction l generalizing seen with
  | nil => simp [uniqueAux]
  | cons v t ih =>
    by_cases hv : v ∈ seen
    · rw [show uniqueAux seen (v :: t) = uniqueAux seen t from by
        simp [uniqueAux, hv], ih seen]
      constructor
      · rintro ⟨h1, h2⟩
        exact ⟨List.mem_cons_of_mem _ h1, h2⟩
      · rintro ⟨h1, h2⟩
        rcases List.mem_cons.mp h1 with rfl | h1
        · exact absurd hv h2
        · exact ⟨h1, h2⟩
    · rw [show uniqueAux seen (v :: t) = v :: uniqueAux (v :: seen) t from by
        simp [uniqueAux, hv]]
      rw [List.mem_cons, List.mem_cons, ih (v :: seen)]
      constructor
      · rintro (rfl | ⟨h1, h2⟩)
        · exact ⟨Or.inl rfl, hv⟩
        · exact ⟨Or.inr h1, fun hs => h2 (List.mem_cons_of_mem _ hs)⟩
      · rintro ⟨h0, h2⟩
        by_cases hav : a = v
        · exact Or.inl hav
        · rcases h0 with rfl | h1
          · exact Or.inl rfl
          · exact Or.inr ⟨h1, fun hs =>
              (List.mem_cons.mp hs).elim (fun h => hav h) h2⟩

theorem mem_uniqueVals {a : Val} {l : List Val} : a ∈ uniqueVals l ↔ a ∈ l := by
  rw [uniqueVals, mem_uniqueAux]
  simp

theorem nodup_uniqueAux : ∀ (seen l : List Val), (uniqueAux seen l).Nodup := by
  intro seen l
  induction l generalizing seen with
  | nil => exact List.nodup_nil
  | cons v t ih =>
    by_cases hv : v ∈ seen
    · simpa [uniqueAux, hv] using ih seen
    · rw [show uniqueAux seen (v :: t) = v :: uniqueAux (v :: seen) t from by
        simp [uniqueAux, hv]]
      refine List.nodup_cons.mpr ⟨?_, ih (v :: seen)⟩
      intro hmem
      exact ((mem_uniqueAux v (v :: seen) t).mp hmem).2 (List.mem_cons_self _ _)

theorem nodup_uniqueVals (l : List Val) : (uniqueVals l).Nodup :=
  nodup_uniqueAux [] l

/-- The nested filters of `get_df_best_odds` select exactly the rows
matching both components of the `(league, match)` key. -/
theorem subsetWhere_subsetWhere_pair (df : DF) (l m : Val) :
    subsetWhere (subsetWhere df "league" l) "match" m = subsetPair df l m := by
  unfold subsetWhere subsetPair
  simp only [DF.cols_mk, DF.rows_mk, List.filter_filter]
  congr 1
  exact List.filter_congr (fun r _ => Bool.and_comm _ _)

theorem groupsMapM_append (df : DF) (ps qs : List (Val × Val)) :
    groupsMapM df (ps ++ qs) =
      match groupsMapM df ps with
      | Except.error e => Except.error e
      | Except.ok ts =>
        match groupsMapM df qs with
        | Except.error e => Except.error e
        | Except.ok us => Except.ok (ts ++ us) := by
  induction ps with
  | nil =>
    cases hq : groupsMapM df qs with
    | error e => simp [groupsMapM, hq]
    | ok us => simp [groupsMapM, hq]
  | cons p ps ih =>
    simp only [List.cons_append, groupsMapM, List.append_eq]
    rw [ih]
    cases hd : _df_best_odds (subsetPair df p.1 p.2) <;>
      cases hp : groupsMapM df ps <;>
        cases hq : groupsMapM df qs <;> simp

theorem matchFold_eq_groups (df : DF) (l : Val) :
    ∀ (ms : List Val) (acc : List Series),
      matchFold (subsetWhere df "league" l) acc ms =
        match groupsMapM df (ms.map (fun m => (l, m))) with
        | Except.error e => Except.error e
        | Except.ok ts => Except.ok (acc ++ ts) := by
  intro ms
  induction ms with
  | nil => intro acc; simp [matchFold, groupsMapM]
  | cons m ms ih =>
    intro acc
    simp only [matchFold, List.map_cons, groupsMapM]
    rw [subsetWhere_subsetWhere_pair]
    cases hd : _df_best_odds (subsetPair df l m) with
    | error e => simp
    | ok t =>
      show matchFold (subsetWhere df "league" l) (acc ++ [t]) ms = _
      rw [ih (acc ++ [t])]
      cases hg : groupsMapM df (ms.map (fun m => (l, m))) with
      | error e => simp
      | ok ts => simp

theorem leagueFold_eq_groups (df : DF) :
    ∀ (ls : List Val) (acc : List Series),
      leagueFold df acc ls =
        match groupsMapM df ((ls.map (fun l =>
          (uniqueVals ((subsetWhere df "league" l).col "match")).map
            (fun m => (l, m)))).flatten) with
        | Except.error e => Except.error e
        | Except.ok ts => Except.ok (acc ++ ts) := by
  intro ls
  induction ls with
  | nil => intro acc; simp [leagueFold, groupsMapM]
  | cons l ls ih =>
    intro acc
    simp only [leagueFold, List.map_cons, List.flatten_cons]
    rw [matchFold_eq_groups df l, groupsMapM_append]
    cases hb : groupsMapM df
        ((uniqueVals ((subsetWhere df "league" l).col "match")).map
          (fun m => (l, m))) with
    | error e => simp
    | ok ts =>
      show leagueFold df (acc ++ ts) ls = _
      rw [ih (acc ++ ts)]
      cases hr : groupsMapM df ((ls.map (fun l =>
          (uniqueVals ((subsetWhere df "league" l).col "match")).map
            (fun m => (l, m)))).flatten) with
      | error e => simp
      | ok us => simp

/-- C3: the aggregator partitions by `league` first and then by `match`:
its output is the per-group aggregation over the distinct `(league,
match)` keys (so same-match observation sets in different leagues form
distinct groups, never merged), each group being the rows matching both
key components, with exactly one group per distinct key. -/
theorem grouping_by_league_then_match (df : DF) :
    get_df_best_odds df = groupsMapM df (nestedKeys df) ∧
    (nestedKeys df).Nodup ∧
    (∀ p : Val × Val, p ∈ nestedKeys df ↔ p ∈ pairsOf df) := by
  refine ⟨?_, ?_, ?_⟩
  · simp only [get_df_best_odds, nestedKeys]
    rw [leagueFold_eq_groups]
    cases hg : groupsMapM df ((( uniqueVals (df.col "league")).map (fun l =>
        (uniqueVals ((subsetWhere df "league" l).col "match")).map
          (fun m => (l, m)))).flatten) with
    | error e => rfl
    | ok ts => simp
  · simp only [nestedKeys]
    rw [List.nodup_flatten]
    constructor
    · intro bl hbl
      obtain ⟨l, _, rfl⟩ := List.mem_map.mp hbl
      exact List.Nodup.map (fun m₁ m₂ h => congrArg Prod.snd h)
        (nodup_uniqueVals _)
    · rw [List.pairwise_map]
      refine (nodup_uniqueVals (df.col "league")).imp ?_
      intro l₁ l₂ hne p hp1 hp2
      obtain ⟨m₁, _, rfl⟩ := List.mem_map.mp hp1
      obtain ⟨m₂, _, he⟩ := List.mem_map.mp hp2
      exact hne (congrArg Prod.fst he).symm
  · intro p
    simp only [nestedKeys]
    rw [List.mem_flatten]
    constructor
    · rintro ⟨bl, hbl, hp⟩
      obtain ⟨l, _, rfl⟩ := List.mem_map.mp hbl
      obtain ⟨m, hm, rfl⟩ := List.mem_map.mp hp
      obtain ⟨r, hr, rfl⟩ := List.mem_map.mp (mem_uniqueVals.mp hm)
      have hr' := List.mem_filter.mp hr
      have hl' : getCell df.cols r "league" = l := of_decide_eq_true hr'.2
      exact List.mem_map.mpr ⟨r, hr'.1, by rw [hl']; rfl⟩
    · intro hp
      obtain ⟨r, hr, rfl⟩ := List.mem_map.mp hp
      refine ⟨(uniqueVals ((subsetWhere df "league"
          (getCell df.cols r "league")).col "match")).map
        (fun m => (getCell df.cols r "league", m)), ?_, ?_⟩
      · exact List.mem_map.mpr ⟨getCell df.cols r "league",
          mem_uniqueVals.mpr (List.mem_map.mpr ⟨r, hr, rfl⟩), rfl⟩
      · refine List.mem_map.mpr ⟨getCell df.cols r "match", ?_, rfl⟩
        apply mem_uniqueVals.mpr
        refine List.mem_map.mpr ⟨r, ?_, rfl⟩
        exact List.mem_filter.mpr ⟨hr, by simp⟩
